import Mathlib

/-
  Verification development for the GSOD weather-processing pipeline
  (read_gsod_data.py, simple_monthly_class.py, data_filtering.py).

  The embedding models:
  - the parser's per-field unit conversions and sentinel handling
    (read_gsod_file), with absent readings as Option.none and numeric
    values as rationals;
  - the monthly aggregator (processing_monthly_data) via the pandas
    mean/max/min semantics with skipna over a month selection;
  - the missing-value filter (datafiltering): zero-fill of precipitation
    and snowfall columns followed by dropping rows that still contain
    an absent value;
  - the hemisphere shifter (shift_data): inner merge with the station
    registry followed by, for southern rows, the literal buffered
    three-step swap of each 6-month-separated column pair;
  - the archive extractor loop (unzip_gsod_files): the per-member
    extract/parse/delete cycle and the numfile cap check.
-/

namespace Gsod

/-- The six measured quantities aggregated per month: mean temperature,
dewpoint, station pressure, wind speed, precipitation, snowfall. -/
inductive Quantity
  | tmp | dew | stp | wpd | prec | sndp
deriving DecidableEq, Fintype, Repr

/-- The three statistics computed per month and quantity. -/
inductive Stat
  | mean | max | min
deriving DecidableEq, Fintype, Repr

/-- A monthly column key: quantity, month index (0..11 standing for
months 01..12 in the column name), statistic, mirroring column names
such as tmp01mean. -/
abbrev ColKey := Quantity × Fin 12 × Stat

/-- Pointwise swap on keys: the permutation exchanging a and b. -/
def swapKey {K : Type} [DecidableEq K] (a b k : K) : K :=
  if k = a then b else if k = b then a else k

/-- The literal buffered three-step assignment of shift_data:
temp_series holds the first column, the first column receives the
second, the second receives the buffer. -/
def swapPair {K V : Type} [DecidableEq K] (f : K → V) (a b : K) : K → V :=
  fun k =>
    let temp := f a
    let f1 := Function.update f a (f b)
    let f2 := Function.update f1 b temp
    f2 k

/-- Sequential application of the buffered swaps, in loop order. -/
def applySwaps {K V : Type} [DecidableEq K] (f : K → V) : List (K × K) → K → V
  | [] => f
  | (a, b) :: rest => applySwaps (swapPair f a b) rest

/-- The permutation realized by a list of buffered swaps. -/
def permOf {K : Type} [DecidableEq K] : List (K × K) → K → K
  | [] => fun k => k
  | (a, b) :: rest => fun k => swapKey a b (permOf rest k)

theorem swapPair_eq {K V : Type} [DecidableEq K] (f : K → V) (a b k : K) :
    swapPair f a b k = f (swapKey a b k) := by
  unfold swapPair swapKey
  by_cases hb : k = b
  · subst hb
    simp [Function.update]
    by_cases ha : k = a
    · subst ha; simp
    · simp [ha]
  · by_cases ha : k = a
    · subst ha
      simp [Function.update, hb]
    · simp [Function.update, ha, hb]

theorem applySwaps_eq_permOf {K V : Type} [DecidableEq K]
    (L : List (K × K)) (f : K → V) (k : K) :
    applySwaps f L k = f (permOf L k) := by
  induction L generalizing f with
  | nil => rfl
  | cons p rest ih =>
    obtain ⟨a, b⟩ := p
    show applySwaps (swapPair f a b) rest k = f (swapKey a b (permOf rest k))
    rw [ih (swapPair f a b) ]
    exact swapPair_eq f a b (permOf rest k)

/-- The column pairs swapped by shift_data, in its loop order: outer
loop over months 1..6, then quantities tmp, dew, stp, wpd, prec, sndp,
then statistics mean, max, min; each pair is (month m, month m+6). -/
def pairsList : List (ColKey × ColKey) :=
  (List.finRange 6).flatMap fun i =>
    ([.tmp, .dew, .stp, .wpd, .prec, .sndp] : List Quantity).flatMap fun q =>
      ([.mean, .max, .min] : List Stat).map fun s =>
        ((q, i.castAdd 6, s), (q, i.addNat 6, s))

/-- The intended month involution: month index i maps to i+6 for
i < 6 and to i-6 otherwise. -/
def swapMonth (i : Fin 12) : Fin 12 :=
  if _ : i.val < 6 then ⟨i.val + 6, by omega⟩ else ⟨i.val - 6, by omega⟩

/-- The intended column involution: swap the 6-month-separated pair. -/
def swapColKey (k : ColKey) : ColKey := (k.1, swapMonth k.2.1, k.2.2)

/-- The 18 (quantity, statistic) combinations, in loop order. -/
def qsList : List (Quantity × Stat) :=
  ([.tmp, .dew, .stp, .wpd, .prec, .sndp] : List Quantity).flatMap fun q =>
    ([.mean, .max, .min] : List Stat).map fun s => (q, s)

/-- The six month pairs (m, m+6) swapped by the outer loop. -/
def monthPairs : List (Fin 12 × Fin 12) :=
  (List.finRange 6).map fun i => (i.castAdd 6, i.addNat 6)

/-- Column pairs generated from a list of month pairs, one block of 18
column pairs per month pair. -/
def shapedPairs (mps : List (Fin 12 × Fin 12)) : List (ColKey × ColKey) :=
  mps.flatMap fun ab =>
    qsList.map fun qs => ((qs.1, ab.1, qs.2), (qs.1, ab.2, qs.2))

theorem permOf_append {K : Type} [DecidableEq K]
    (L1 L2 : List (K × K)) (k : K) :
    permOf (L1 ++ L2) k = permOf L1 (permOf L2 k) := by
  induction L1 with
  | nil => rfl
  | cons p rest ih =>
    obtain ⟨a, b⟩ := p
    show swapKey a b (permOf (rest ++ L2) k) = swapKey a b (permOf rest (permOf L2 k))
    rw [ih]

theorem swapKey_fiber (q : Quantity) (s : Stat) (a b x : Fin 12) :
    swapKey (q, a, s) (q, b, s) (q, x, s) = (q, swapKey a b x, s) := by
  unfold swapKey
  by_cases hxa : x = a
  · subst hxa; simp
  · have h1 : ((q, x, s) : ColKey) ≠ (q, a, s) := by
      simp [Prod.ext_iff, hxa]
    by_cases hxb : x = b
    · subst hxb; simp [h1, hxa]
    · have h2 : ((q, x, s) : ColKey) ≠ (q, b, s) := by
        simp [Prod.ext_iff, hxb]
      simp [h1, h2, hxa, hxb]

theorem swapKey_offFiber (q1 q0 : Quantity) (s1 s0 : Stat) (a b x : Fin 12)
    (h : (q1, s1) ≠ (q0, s0)) :
    swapKey (q1, a, s1) (q1, b, s1) (q0, x, s0) = (q0, x, s0) := by
  have h1 : ((q0, x, s0) : ColKey) ≠ (q1, a, s1) := by
    intro hc
    apply h
    rw [Prod.ext_iff] at hc ⊢
    simp only [Prod.ext_iff] at hc
    exact ⟨hc.1.symm, hc.2.2.symm⟩
  have h2 : ((q0, x, s0) : ColKey) ≠ (q1, b, s1) := by
    intro hc
    apply h
    rw [Prod.ext_iff] at hc ⊢
    simp only [Prod.ext_iff] at hc
    exact ⟨hc.1.symm, hc.2.2.symm⟩
  unfold swapKey
  simp [h1, h2]

theorem permOf_block (qsL : List (Quantity × Stat)) (hnd : qsL.Nodup)
    (a b : Fin 12) (q0 : Quantity) (s0 : Stat) (m1 : Fin 12) :
    permOf (qsL.map fun qs => ((qs.1, a, qs.2), (qs.1, b, qs.2))) (q0, m1, s0)
      = (q0, if (q0, s0) ∈ qsL then swapKey a b m1 else m1, s0) := by
  induction qsL with
  | nil => simp [permOf]
  | cons qs rest ih =>
    obtain ⟨hq, hrest⟩ := List.nodup_cons.mp hnd
    show swapKey (qs.1, a, qs.2) (qs.1, b, qs.2)
        (permOf (rest.map fun p => ((p.1, a, p.2), (p.1, b, p.2))) (q0, m1, s0)) = _
    rw [ih hrest]
    by_cases hqs : qs = (q0, s0)
    · subst hqs
      rw [if_neg hq, if_pos (List.mem_cons_self _ _)]
      exact swapKey_fiber q0 s0 a b m1
    · have hne : ((qs.1, qs.2) : Quantity × Stat) ≠ (q0, s0) := by
        simpa using hqs
      rw [swapKey_offFiber qs.1 q0 qs.2 s0 a b _ hne]
      have hmem : (((q0, s0) : Quantity × Stat) ∈ qs :: rest) ↔ ((q0, s0) ∈ rest) := by
        simp [List.mem_cons, Ne.symm hqs]
      rw [if_congr hmem rfl rfl]

theorem qsList_nodup : qsList.Nodup := by decide

theorem mem_qsList (q : Quantity) (s : Stat) : (q, s) ∈ qsList := by
  cases q <;> cases s <;> decide

theorem permOf_shaped (mps : List (Fin 12 × Fin 12))
    (q0 : Quantity) (s0 : Stat) (m : Fin 12) :
    permOf (shapedPairs mps) (q0, m, s0) = (q0, permOf mps m, s0) := by
  induction mps with
  | nil => rfl
  | cons ab rest ih =>
    obtain ⟨a, b⟩ := ab
    have hsplit : shapedPairs ((a, b) :: rest)
        = (qsList.map fun qs => ((qs.1, a, qs.2), (qs.1, b, qs.2)))
          ++ shapedPairs rest := by
      simp [shapedPairs]
    rw [hsplit, permOf_append, ih, permOf_block qsList qsList_nodup a b q0 s0,
      if_pos (mem_qsList q0 s0)]
    rfl

theorem pairsList_eq_shaped : pairsList = shapedPairs monthPairs := by decide

theorem permOf_monthPairs (m : Fin 12) : permOf monthPairs m = swapMonth m := by
  revert m; decide

theorem permOf_pairsList (k : ColKey) : permOf pairsList k = swapColKey k := by
  obtain ⟨q, m, s⟩ := k
  rw [pairsList_eq_shaped, permOf_shaped, permOf_monthPairs]
  rfl

/-- Station location columns carried by the registry join performed in
read_history: latitude, longitude, elevation, station name, country. -/
structure LocInfo where
  lat : Option ℚ
  lon : Option ℚ
  elev : Option ℚ
  stn_nm : String
  ctry : String

/-- A MonthlyStationRecord-shaped row: the stn join key plus one value
per monthly column (216 columns), absent values as none. -/
structure MonthlyRow where
  stn : String
  monthly : ColKey → Option ℚ

/-- A row of the station registry after read_history: the combined stn
join key plus the location columns. -/
structure LocRow where
  stn : String
  loc : LocInfo

/-- A merged row after the inner join in shift_data: the stn key, all
original monthly columns, and the joined location columns. -/
@[ext]
structure MergedRow where
  stn : String
  monthly : ColKey → Option ℚ
  loc : LocInfo

/-- The inner merge on stn performed by shift_data: each filtered row
pairs with each registry row carrying an equal stn key, in order. -/
def shift_merge (fdf : List MonthlyRow) (ldf : List LocRow) : List MergedRow :=
  fdf.flatMap fun f =>
    (ldf.filter fun l => l.stn == f.stn).map fun l =>
      { stn := f.stn, monthly := f.monthly, loc := l.loc }

/-- The southern-hemisphere test of shift_data: LAT < 0.0; an absent
latitude compares false, matching the NaN comparison semantics. -/
def isSouth (r : MergedRow) : Bool :=
  match r.loc.lat with
  | some l => decide (l < 0)
  | none => false

/-- The shift applied to one merged row: for a southern row, the
sequence of 108 buffered column-pair swaps of shift_data, in loop
order; any other row is untouched. -/
def shift_row (r : MergedRow) : MergedRow :=
  if isSouth r then { r with monthly := applySwaps r.monthly pairsList } else r

/-- The month-swapping transformation applied to the merged table. -/
def shiftTable (t : List MergedRow) : List MergedRow := t.map shift_row

/-- shift_data: merge the filtered table with the registry on stn,
then apply the southern-hemisphere swap to every row. -/
def shift_data (fdf : List MonthlyRow) (ldf : List LocRow) : List MergedRow :=
  shiftTable (shift_merge fdf ldf)

theorem shift_row_south_monthly (r : MergedRow) (hs : isSouth r = true)
    (k : ColKey) : (shift_row r).monthly k = r.monthly (swapColKey k) := by
  rw [shift_row, if_pos hs]
  show applySwaps r.monthly pairsList k = _
  rw [applySwaps_eq_permOf, permOf_pairsList]

theorem shift_row_stn (r : MergedRow) : (shift_row r).stn = r.stn := by
  unfold shift_row
  split <;> rfl

theorem shift_row_loc (r : MergedRow) : (shift_row r).loc = r.loc := by
  unfold shift_row
  split <;> rfl

theorem isSouth_shift_row (r : MergedRow) : isSouth (shift_row r) = isSouth r := by
  unfold isSouth
  rw [shift_row_loc]

theorem swapMonth_swapMonth (i : Fin 12) : swapMonth (swapMonth i) = i := by
  have h12 := i.isLt
  unfold swapMonth
  by_cases h : i.val < 6
  · rw [dif_pos h, dif_neg (by show ¬ (i.val + 6 < 6); omega)]
    apply Fin.ext
    show i.val + 6 - 6 = i.val
    omega
  · rw [dif_neg h, dif_pos (by show i.val - 6 < 6; omega)]
    apply Fin.ext
    show i.val - 6 + 6 = i.val
    omega

theorem swapColKey_swapColKey (k : ColKey) : swapColKey (swapColKey k) = k := by
  obtain ⟨q, m, s⟩ := k
  show (q, swapMonth (swapMonth m), s) = (q, m, s)
  rw [swapMonth_swapMonth]

theorem shift_row_shift_row (r : MergedRow) : shift_row (shift_row r) = r := by
  by_cases hs : isSouth r = true
  · have hs2 : isSouth (shift_row r) = true := by rw [isSouth_shift_row]; exact hs
    apply MergedRow.ext
    · rw [shift_row_stn, shift_row_stn]
    · funext k
      rw [shift_row_south_monthly _ hs2, shift_row_south_monthly _ hs,
        swapColKey_swapColKey]
    · rw [shift_row_loc, shift_row_loc]
  · have hr : shift_row r = r := by rw [shift_row, if_neg hs]
    rw [hr, hr]

theorem swapMonth_castAdd (m : Fin 6) : swapMonth (m.castAdd 6) = m.addNat 6 := by
  unfold swapMonth
  rw [dif_pos (show (m.castAdd 6).val < 6 from m.isLt)]
  apply Fin.ext
  rfl

theorem swapMonth_addNat (m : Fin 6) : swapMonth (m.addNat 6) = m.castAdd 6 := by
  unfold swapMonth
  rw [dif_neg (by show ¬ (m.val + 6 < 6); omega)]
  apply Fin.ext
  show m.val + 6 - 6 = m.val
  omega

/-- C1: for every merged row with latitude < 0, the hemisphere shift
performs a full bidirectional, simultaneous swap: for each quantity,
each statistic and each month m in 1..6, the final value stored under
month m equals the pre-shift value stored under month m+6, and the
final value under month m+6 equals the pre-shift value under month m. -/
theorem shift_south_swap_bidirectional (r : MergedRow) (l : ℚ)
    (hl : r.loc.lat = some l) (hneg : l < 0)
    (q : Quantity) (s : Stat) (m : Fin 6) :
    (shift_row r).monthly (q, m.castAdd 6, s) = r.monthly (q, m.addNat 6, s) ∧
    (shift_row r).monthly (q, m.addNat 6, s) = r.monthly (q, m.castAdd 6, s) := by
  have hs : isSouth r = true := by
    unfold isSouth
    rw [hl]
    exact decide_eq_true hneg
  constructor
  · rw [shift_row_south_monthly r hs]
    show r.monthly (q, swapMonth (m.castAdd 6), s) = _
    rw [swapMonth_castAdd]
  · rw [shift_row_south_monthly r hs]
    show r.monthly (q, swapMonth (m.addNat 6), s) = _
    rw [swapMonth_addNat]

/-- A sample southern-hemisphere merged row whose monthly values are
distinct per month. -/
def sampleSouthRow : MergedRow :=
  { stn := "941200 99999"
    monthly := fun k => some ((k.2.1.val : ℚ) + 1)
    loc := { lat := some (-33), lon := some 150, elev := some 10,
             stn_nm := "SYDNEY", ctry := "AS" } }

theorem shift_south_swap_bidirectional_witness :
    (shift_row sampleSouthRow).monthly (.tmp, (0 : Fin 6).castAdd 6, .mean)
        = sampleSouthRow.monthly (.tmp, (0 : Fin 6).addNat 6, .mean) ∧
    (shift_row sampleSouthRow).monthly (.tmp, (0 : Fin 6).addNat 6, .mean)
        = sampleSouthRow.monthly (.tmp, (0 : Fin 6).castAdd 6, .mean) :=
  shift_south_swap_bidirectional sampleSouthRow (-33) rfl (by norm_num) .tmp .mean 0

/-- C4: the hemisphere shift is involutive: applying the
month-swapping transformation twice restores the merged table exactly,
in every column, for rows of every latitude. -/
theorem shift_involutive (t : List MergedRow) :
    shiftTable (shiftTable t) = t := by
  unfold shiftTable
  rw [List.map_map]
  have hcomp : shift_row ∘ shift_row = id := funext shift_row_shift_row
  rw [hcomp, List.map_id]

/-- C5: every merged row whose latitude is greater than or equal to 0
is left unchanged by the hemisphere shift, and it appears unchanged in
the shift_data output, which retains all original columns plus the
joined location columns. -/
theorem shift_preserves_nonneg_lat (fdf : List MonthlyRow) (ldf : List LocRow)
    (r : MergedRow) (hmem : r ∈ shift_merge fdf ldf)
    (h : ∀ l : ℚ, r.loc.lat = some l → 0 ≤ l) :
    shift_row r = r ∧ r ∈ shift_data fdf ldf := by
  have hns : isSouth r = false := by
    unfold isSouth
    cases hl : r.loc.lat with
    | none => rfl
    | some l => exact decide_eq_false (not_lt.mpr (h l hl))
  have hr : shift_row r = r := by simp [shift_row, hns]
  refine ⟨hr, ?_⟩
  unfold shift_data shiftTable
  have hmap : shift_row r ∈ (shift_merge fdf ldf).map shift_row :=
    List.mem_map_of_mem shift_row hmem
  rwa [hr] at hmap

/-- A sample northern-hemisphere monthly row. -/
def sampleNorthMonthlyRow : MonthlyRow :=
  { stn := "010010 99999", monthly := fun k => some ((k.2.1.val : ℚ)) }

/-- The matching registry row for the sample northern station. -/
def sampleNorthLocRow : LocRow :=
  { stn := "010010 99999"
    loc := { lat := some 70, lon := some (-8), elev := some 9,
             stn_nm := "JAN MAYEN", ctry := "NO" } }

/-- The merged row produced by joining the two sample rows. -/
def sampleNorthMerged : MergedRow :=
  { stn := sampleNorthMonthlyRow.stn
    monthly := sampleNorthMonthlyRow.monthly
    loc := sampleNorthLocRow.loc }

theorem shift_preserves_nonneg_lat_witness :
    shift_row sampleNorthMerged = sampleNorthMerged ∧
    sampleNorthMerged ∈ shift_data [sampleNorthMonthlyRow] [sampleNorthLocRow] :=
  shift_preserves_nonneg_lat [sampleNorthMonthlyRow] [sampleNorthLocRow]
    sampleNorthMerged
    (by
      unfold shift_merge
      refine List.mem_flatMap.mpr ⟨sampleNorthMonthlyRow, by simp, ?_⟩
      refine List.mem_map.mpr ⟨sampleNorthLocRow, ?_, rfl⟩
      refine List.mem_filter.mpr ⟨by simp, rfl⟩)
    (by
      intro l hl
      rw [show sampleNorthMerged.loc.lat = some (70 : ℚ) from rfl] at hl
      have h70 : (70 : ℚ) = l := Option.some.inj hl
      rw [← h70]
      norm_num)

/-- C10: a merged row whose latitude value is absent after the inner
join is classified as non-southern, and the shift leaves all of its
monthly columns unchanged rather than failing or swapping. -/
theorem shift_preserves_absent_lat (r : MergedRow) (h : r.loc.lat = none) :
    shift_row r = r := by
  have hns : isSouth r = false := by
    unfold isSouth
    rw [h]
  simp [shift_row, hns]

/-- A merged row with an absent latitude. -/
def sampleNanLatRow : MergedRow :=
  { stn := "999999 99999"
    monthly := fun _ => some 0
    loc := { lat := none, lon := none, elev := none, stn_nm := "", ctry := "" } }

theorem shift_preserves_absent_lat_witness :
    shift_row sampleNanLatRow = sampleNanLatRow :=
  shift_preserves_absent_lat sampleNanLatRow rfl

/-- A parsed daily record as consumed by the monthly aggregator.
Modelled from the spec: the month column mn read by
processing_monthly_data (df with a per-record month) is populated by a
parser revision absent from the repository; per the spec, it is the
calendar month 1..12 of the record's parsed date. The six quantity
columns hold the unit-converted values, absent readings as none. -/
structure DailyRecord where
  stn : Nat
  mn : Nat
  vals : Quantity → Option ℚ

/-- The non-absent values of a column selection, in the order pandas
skipna statistics consume them. -/
def seriesVals (xs : List (Option ℚ)) : List ℚ := xs.filterMap id

/-- pandas Series.mean with skipna: the mean of the non-absent values,
absent when there are none. -/
def seriesMean (xs : List (Option ℚ)) : Option ℚ :=
  match seriesVals xs with
  | [] => none
  | v :: vs => some ((v :: vs).sum / (v :: vs).length)

/-- pandas Series.max with skipna: the greatest non-absent value,
absent when there are none. -/
def seriesMax (xs : List (Option ℚ)) : Option ℚ :=
  match seriesVals xs with
  | [] => none
  | v :: vs => some (vs.foldl max v)

/-- pandas Series.min with skipna: the least non-absent value, absent
when there are none. -/
def seriesMin (xs : List (Option ℚ)) : Option ℚ :=
  match seriesVals xs with
  | [] => none
  | v :: vs => some (vs.foldl min v)

/-- The month selection of processing_monthly_data: the quantity-q
values of the records whose mn equals the month. -/
def monthSelect (records : List DailyRecord) (m : Nat) (q : Quantity) :
    List (Option ℚ) :=
  (records.filter fun r => r.mn == m).map fun r => r.vals q

/-- One aggregated cell of processing_monthly_data: the chosen
statistic over the month selection. -/
def aggCell (records : List DailyRecord) (m : Nat) (q : Quantity) :
    Stat → Option ℚ
  | .mean => seriesMean (monthSelect records m q)
  | .max => seriesMax (monthSelect records m q)
  | .min => seriesMin (monthSelect records m q)

/-- The MonthlyStationRecord row built by processing_monthly_data for
one station: the column for (q, month index i, stat) holds the
statistic over month i+1. -/
def processing_monthly_data (stn : String) (records : List DailyRecord) :
    MonthlyRow :=
  { stn := stn
    monthly := fun k => aggCell records (k.2.1.val + 1) k.1 k.2.2 }

/-- C2: if a station has zero daily records, or only absent values of
quantity q, in month m, the monthly aggregator records all three
statistics mean, max and min for (m, q) as absent — never zero and
never a number fabricated by NaN-propagating arithmetic. -/
theorem agg_absent_on_empty_month (records : List DailyRecord) (m : Nat)
    (q : Quantity) (h : ∀ r ∈ records, r.mn = m → r.vals q = none) :
    aggCell records m q .mean = none ∧ aggCell records m q .max = none ∧
      aggCell records m q .min = none := by
  have hsel : seriesVals (monthSelect records m q) = [] := by
    rw [seriesVals, List.filterMap_eq_nil_iff]
    intro a ha
    obtain ⟨r, hr, hra⟩ := List.mem_map.mp ha
    obtain ⟨hrmem, hrm⟩ := List.mem_filter.mp hr
    rw [← hra]
    exact h r hrmem (by simpa using hrm)
  refine ⟨?_, ?_, ?_⟩
  · show seriesMean (monthSelect records m q) = none
    unfold seriesMean
    rw [hsel]
  · show seriesMax (monthSelect records m q) = none
    unfold seriesMax
    rw [hsel]
  · show seriesMin (monthSelect records m q) = none
    unfold seriesMin
    rw [hsel]

/-- A daily record observed in month 2 only. -/
def sampleDaily : DailyRecord :=
  { stn := 10010, mn := 2, vals := fun _ => some 5 }

theorem agg_absent_on_empty_month_witness :
    aggCell [sampleDaily] 1 .tmp .mean = none ∧
      aggCell [sampleDaily] 1 .tmp .max = none ∧
      aggCell [sampleDaily] 1 .tmp .min = none :=
  agg_absent_on_empty_month [sampleDaily] 1 .tmp
    (by
      intro r hr hm
      rw [List.mem_singleton] at hr
      subst hr
      exact absurd hm (by decide))

/-- The zero-fill step of datafiltering: an absent value in a column
whose name contains prec or sndp becomes zero. -/
def fillPrecSndp (r : MonthlyRow) : MonthlyRow :=
  { r with monthly := fun k =>
      if (k.1 = Quantity.prec ∨ k.1 = Quantity.sndp) ∧ r.monthly k = none
      then some 0 else r.monthly k }

/-- All 216 monthly column keys. -/
def allKeys : List ColKey :=
  (List.finRange 12).flatMap fun i =>
    ([.tmp, .dew, .stp, .wpd, .prec, .sndp] : List Quantity).flatMap fun q =>
      ([.mean, .max, .min] : List Stat).map fun s => (q, i, s)

/-- The dropna row test of datafiltering: a row is kept only when no
monthly column is absent. -/
def rowComplete (r : MonthlyRow) : Bool :=
  allKeys.all fun k => (r.monthly k).isSome

/-- datafiltering: zero-fill the precipitation and snowfall columns,
then drop every row that still contains an absent value. -/
def datafiltering (t : List MonthlyRow) : List MonthlyRow :=
  (t.map fillPrecSndp).filter rowComplete

theorem mem_allKeys (k : ColKey) : k ∈ allKeys := by
  obtain ⟨q, i, s⟩ := k
  unfold allKeys
  refine List.mem_flatMap.mpr ⟨i, List.mem_finRange i, ?_⟩
  refine List.mem_flatMap.mpr ⟨q, ?_, ?_⟩
  · cases q <;> decide
  · refine List.mem_map.mpr ⟨s, ?_, rfl⟩
    cases s <;> decide

/-- C3: datafiltering first replaces every absent value in the
precipitation and snowfall columns with zero, then drops exactly the
rows still containing an absent value; consequently no row of the
output contains an absent value in any column. -/
theorem datafiltering_no_absent (t : List MonthlyRow) (r : MonthlyRow)
    (hmem : r ∈ datafiltering t) (k : ColKey) : (r.monthly k).isSome := by
  obtain ⟨hmap, hcomp⟩ := List.mem_filter.mp hmem
  exact List.all_eq_true.mp hcomp k (mem_allKeys k)

/-- A monthly row whose precipitation columns are absent and whose
other columns are present. -/
def sampleFillableRow : MonthlyRow :=
  { stn := "010010 99999"
    monthly := fun k => if k.1 = Quantity.prec then none else some 1 }

theorem datafiltering_no_absent_witness :
    ((fillPrecSndp sampleFillableRow).monthly
      (Quantity.prec, (0 : Fin 12), Stat.mean)).isSome :=
  datafiltering_no_absent [sampleFillableRow] (fillPrecSndp sampleFillableRow)
    (List.mem_filter.mpr
      ⟨List.mem_map.mpr ⟨sampleFillableRow, List.mem_singleton.mpr rfl, rfl⟩,
        by decide⟩)
    (Quantity.prec, (0 : Fin 12), Stat.mean)

/-- Mean-temperature conversion of read_gsod_file: the sentinel 9999.9
maps to absent, otherwise (v - 32) * 5 / 9; an absent raw value
propagates as absent. -/
def conv_tmp (v : Option ℚ) : Option ℚ :=
  v.bind fun x => if x = 9999.9 then none else some ((x - 32) * 5 / 9)

/-- Dewpoint conversion of read_gsod_file: identical to the
temperature conversion. -/
def conv_dew (v : Option ℚ) : Option ℚ := conv_tmp v

/-- Station-pressure conversion of read_gsod_file: the sentinel 9999.9
maps to absent, otherwise hPa to Pa via v * 100. -/
def conv_stp (v : Option ℚ) : Option ℚ :=
  v.bind fun x => if x = 9999.9 then none else some (x * 100)

/-- Wind-speed conversion of read_gsod_file: the sentinel 999.9 maps
to absent, otherwise knots to m/s via the literal source factor
0.5144444444444. -/
def conv_wpd (v : Option ℚ) : Option ℚ :=
  v.bind fun x => if x = 999.9 then none else some (x * 0.5144444444444)

/-- Precipitation conversion of read_gsod_file, numeric branch: the
sentinel 99.99 maps to absent, otherwise inches to mm via v * 25.4;
the string branch applies the same sentinel test after stripping the
trailing flag character. -/
def conv_prec (v : Option ℚ) : Option ℚ :=
  v.bind fun x => if x = 99.99 then none else some (x * 25.4)

/-- Snowfall conversion of read_gsod_file: the sentinel 999.9 is
replaced by 0.0 before the v * 25.4 scaling, so it maps to zero, not
to absent. -/
def conv_sndp (v : Option ℚ) : Option ℚ :=
  v.map fun x => (if x = 999.9 then 0 else x) * 25.4

/-- C6 counterexample: the snowfall sentinel 999.9 does not map to
absent in the parsed data before the missing-value filter: the parser
maps it directly to zero. -/
theorem sndp_sentinel_not_absent :
    conv_sndp (some 999.9) = some 0 ∧ conv_sndp (some 999.9) ≠ none := by
  constructor
  · show some ((if (999.9 : ℚ) = 999.9 then 0 else 999.9) * 25.4) = some 0
    rw [if_pos rfl]
    norm_num
  · show some _ ≠ none
    exact Option.some_ne_none _

/-- C6 amended: the precipitation sentinel 99.99 maps to absent at
parse time and the filter's zero-fill then maps an absent
precipitation or snowfall cell to 0.0; the snowfall sentinel 999.9
maps to 0.0 already at parse time, so it is 0.0 both before and after
the filter. -/
theorem sentinel_mapping (r : MonthlyRow) (k : ColKey)
    (hq : k.1 = Quantity.prec ∨ k.1 = Quantity.sndp)
    (habs : r.monthly k = none) :
    conv_prec (some 99.99) = none ∧
    (fillPrecSndp r).monthly k = some 0 ∧
    conv_sndp (some 999.9) = some 0 := by
  refine ⟨?_, ?_, ?_⟩
  · show (if (99.99 : ℚ) = 99.99 then none else some (99.99 * 25.4)) = none
    rw [if_pos rfl]
  · show (if (k.1 = Quantity.prec ∨ k.1 = Quantity.sndp) ∧ r.monthly k = none
      then some 0 else r.monthly k) = some 0
    rw [if_pos ⟨hq, habs⟩]
  · show some ((if (999.9 : ℚ) = 999.9 then 0 else 999.9) * 25.4) = some 0
    rw [if_pos rfl]
    norm_num

theorem sentinel_mapping_witness :
    conv_prec (some 99.99) = none ∧
    (fillPrecSndp sampleFillableRow).monthly
      (Quantity.prec, (0 : Fin 12), Stat.mean) = some 0 ∧
    conv_sndp (some 999.9) = some 0 :=
  sentinel_mapping sampleFillableRow (Quantity.prec, (0 : Fin 12), Stat.mean)
    (Or.inl rfl) rfl

/-- C7: the parser's unit conversions are exact on these inputs:
temperature 212.0 converts to exactly 100.0, pressure 1013.0 to
exactly 101300.0 Pa, and wind speed 10.0 knots to 5.144444444444 m/s,
ten times the literal source conversion factor 0.5144444444444. -/
theorem conversions_exact :
    conv_tmp (some 212) = some 100 ∧
    conv_stp (some 1013) = some 101300 ∧
    conv_wpd (some 10) = some 5.144444444444 := by
  refine ⟨?_, ?_, ?_⟩
  · show (if (212 : ℚ) = 9999.9 then none else some ((212 - 32) * 5 / 9))
      = some 100
    rw [if_neg (by norm_num)]
    norm_num
  · show (if (1013 : ℚ) = 9999.9 then none else some (1013 * 100))
      = some 101300
    rw [if_neg (by norm_num)]
    norm_num
  · show (if (10 : ℚ) = 999.9 then none else some (10 * 0.5144444444444))
      = some 5.144444444444
    rw [if_neg (by norm_num)]
    norm_num

/-- Whether the pattern occurs at the head of the character list. -/
def patAt : List Char → List Char → Bool
  | [], _ => true
  | _ :: _, [] => false
  | p :: ps, c :: cs => p == c && patAt ps cs

/-- Whether the pattern occurs anywhere in the character list. -/
def hasPat (pat : List Char) : List Char → Bool
  | [] => patAt pat []
  | c :: cs => patAt pat (c :: cs) || hasPat pat cs

/-- The member test of unzip_gsod_files: whether the substring .gz
occurs in the member name. -/
def gzMatch (s : String) : Bool := hasPat ".gz".data s.data

/-- An archive member, identified by its file name. -/
structure TarMember where
  name : String

/-- The cap test num > numfile of unzip_gsod_files: numfile is a
float whose default is NaN, and every comparison against NaN is
false; a finite cap compares numerically. -/
def capExceeded (num : Nat) : Option ℚ → Bool
  | none => false
  | some c => decide ((num : ℚ) > c)

/-- The counting loop of unzip_gsod_files: each matching member is
extracted and parsed and num is incremented; after each member the
loop breaks when num > numfile. The result is the number of member
files extracted and parsed. -/
def unzip_count (members : List TarMember) (numfile : Option ℚ)
    (num : Nat) : Nat :=
  match members with
  | [] => num
  | mem :: rest =>
    let num2 := if gzMatch mem.name then num + 1 else num
    if capExceeded num2 numfile then num2 else unzip_count rest numfile num2

/-- Three matching archive members. -/
def threeGzMembers : List TarMember := [⟨"a.gz"⟩, ⟨"b.gz"⟩, ⟨"c.gz"⟩]

/-- C8: with the finite cap numfile = 2 and three matching members,
unzip_gsod_files extracts and parses 3 member files — more than the
cap — because the loop breaks only once num is strictly greater than
numfile, after the extra file has already been processed; with no cap
supplied all three matching members are processed. -/
theorem unzip_cap_exceeded :
    unzip_count threeGzMembers (some 2) 0 = 3 ∧
    ¬ (unzip_count threeGzMembers (some 2) 0 ≤ 2) ∧
    unzip_count threeGzMembers none 0 = 3 := by
  have h2 : unzip_count threeGzMembers (some 2) 0 = 3 := by decide
  have h0 : unzip_count threeGzMembers none 0 = 3 := by decide
  exact ⟨h2, by rw [h2]; omega, h0⟩

/-- One extraction-parse-delete cycle of unzip_gsod_files for one
archive member, tracking which extracted temporary files are present:
a matching member is extracted, then parsed; the extracted file is
removed after a successful parse, while a parse failure propagates
before the removal runs. Returns the files present afterwards and
whether the cycle completed. -/
def processMember (parseOk : String → Bool) (files : List String)
    (mem : TarMember) : List String × Bool :=
  if gzMatch mem.name then
    let extracted := files ++ [mem.name]
    if parseOk mem.name then (extracted.erase mem.name, true)
    else (extracted, false)
  else (files, true)

/-- A parse that fails on every file. -/
def alwaysFailParse : String → Bool := fun _ => false

/-- A parse that succeeds on every file. -/
def alwaysOkParse : String → Bool := fun _ => true

/-- C9 counterexample: when parsing the extracted member fails, the
temporary extracted file is not deleted: the cycle for a.gz exits
with a.gz still present on disk. -/
theorem extract_leak_on_parse_failure :
    (processMember alwaysFailParse [] ⟨"a.gz"⟩).1 = ["a.gz"] ∧
    (processMember alwaysFailParse [] ⟨"a.gz"⟩).1 ≠ [] := by
  constructor
  · decide
  · decide

/-- C9 amended: the temporary extracted file is deleted when parsing
succeeds — the cycle returns the disk to its prior state, so at most
one extracted file exists at a time along successful runs — but when
parsing fails, the failure propagates before the removal and the
extracted file remains. -/
theorem extract_cleanup_on_success (parseOk : String → Bool)
    (files : List String) (mem : TarMember) (hnin : mem.name ∉ files) :
    (parseOk mem.name = true → (processMember parseOk files mem).1 = files) ∧
    (gzMatch mem.name = true → parseOk mem.name = false →
      mem.name ∈ (processMember parseOk files mem).1) := by
  constructor
  · intro hp
    unfold processMember
    by_cases hgz : gzMatch mem.name
    · rw [if_pos hgz, if_pos hp]
      show (files ++ [mem.name]).erase mem.name = files
      rw [List.erase_append_right _ hnin]
      simp
    · rw [if_neg hgz]
  · intro hgz hp
    unfold processMember
    rw [if_pos hgz, if_neg (by simp [hp])]
    show mem.name ∈ files ++ [mem.name]
    simp

theorem extract_cleanup_on_success_witness :
    (processMember alwaysOkParse [] ⟨"a.gz"⟩).1 = [] :=
  (extract_cleanup_on_success alwaysOkParse [] ⟨"a.gz"⟩ (by decide)).1 rfl

end Gsod
